import Mathlib

/-!
Formal model of the apiki-gateway core pipeline (API-key validation, target
pattern matching, credit debiting, request forwarding), shallowly embedded
from the TypeScript sources.  Paths and patterns are modelled as `List Char`
(JS strings), JS numbers that hold balances / costs / timestamps as `Int`,
and the external key-value store as explicit state threaded through each
operation.  The ambient JS regular-expression engine is a parameter
`List Char → Option (List Char → Bool)`: `none` models a pattern on which
`new RegExp` throws, `some test` a compiled regex.  Fire-and-forget usage
tracking (`trackUsage`, `trackApiKeyUsage`) only touches `usage:*` keys and
never the credit records, and is omitted from the state.
-/

namespace Apiki

/-! JavaScript string primitives, on `List Char`. -/

/-- JS `s.endsWith(c)` for a one-character suffix `c`. -/
def jsEndsWithChar (s : List Char) (c : Char) : Bool :=
  s.getLast? == some c

/-- JS `s.startsWith(p)`. -/
def jsStartsWith (s p : List Char) : Bool :=
  List.isPrefixOf p s

/-- JS `s.slice(0, -1)`: drop the last character (identity on `""`). -/
def jsSlice1 (s : List Char) : List Char :=
  s.dropLast

/-! Credit ledger (`src/gateway/services/credits.ts` `processCredits`, identical
to `src/services/credits.ts` `processCredits`): the per-client credits record
variant storing `{balance, lastUpdated}` JSON under `credits:<clientId>`. -/

/-- The `CreditData` record (`shared/types`): `lastUpdated` is an ISO string in
the source; only its identity matters here, so it is abstracted to an `Int`
timestamp. -/
structure CreditData where
  balance : Int
  lastUpdated : Int
deriving DecidableEq, Repr

/-- The `CreditResult` shape. In the `CreditData`-record variants of
`processCredits` the `used` field is optional and omitted on failure, hence
`Option Int` (`none` = the JS property is absent / `undefined`). -/
structure CreditResult where
  success : Bool
  remaining : Int
  used : Option Int
deriving DecidableEq, Repr

/-- The balance a read of the credits record observes: the stored balance, or
the `|| { balance: 0, ... }` default when the record is absent. -/
def storedBalance : Option CreditData → Int
  | none => 0
  | some d => d.balance

/-- Embedding of `processCredits(clientId, cost, env)` from
`src/gateway/services/credits.ts` (lines 9-43), acting on the credits record of
the one client in question.  Reads the record (defaulting to balance 0), fails
without any write when `balance < cost`, otherwise writes
`{balance: balance - cost, lastUpdated: now}` back and reports success. -/
def processCredits (cost : Int) (now : Int) (stored : Option CreditData) :
    CreditResult × Option CreditData :=
  let creditData := stored.getD { balance := 0, lastUpdated := now }
  if creditData.balance < cost then
    ({ success := false, remaining := creditData.balance, used := none }, stored)
  else
    let newBalance := creditData.balance - cost
    ({ success := true, remaining := newBalance, used := some cost },
      some { balance := newBalance, lastUpdated := now })

/-- A finite sequence of sequential `processCredits` calls for one client:
returns the list of results and the final stored record. -/
def runCredits (now : Int) : List Int → Option CreditData → List CreditResult × Option CreditData
  | [], stored => ([], stored)
  | cost :: rest, stored =>
    let step := processCredits cost now stored
    let restRun := runCredits now rest step.2
    (step.1 :: restRun.1, restRun.2)

/-- Sum of the costs of exactly those calls that reported `success == true`,
pairing each submitted cost with its result. -/
def successCostSum : List Int → List CreditResult → Int
  | c :: cs, r :: rs => (if r.success then c else 0) + successCostSum cs rs
  | _, _ => 0

/-! API key validation.  Two variants exist in the sources: the canonical
gateway worker (`src/gateway/index.ts`, lines 37-40) checks a numeric
`expiresAt : number | null` inline via
`!apiKeyConfig.active || (apiKeyConfig.expiresAt && apiKeyConfig.expiresAt <
Date.now())`, and the legacy `validateApiKey` (gateway apiKey service) checks a
string `expiresAt : string | null` via
`keyData.expiresAt && new Date(keyData.expiresAt) < new Date()`.  In both, the
truthiness test on `expiresAt` short-circuits the date comparison, and the
comparison against the current time is strict `<`. -/

/-- The `ApiKeyConfig` record (`shared/types`): numeric epoch-milliseconds
expiry, `none` = JSON `null`. -/
structure ApiKeyConfig where
  active : Bool
  expiresAt : Option Int
  clientId : String
  targetId : String
deriving DecidableEq, Repr

/-- JS truthiness of a `number | null` value: `null` and `0` are falsy. -/
def numTruthy : Option Int → Bool
  | none => false
  | some t => t != 0

/-- The active/expiry acceptance check of `src/gateway/index.ts` line 38: the
key is accepted (not 403-rejected as expired or inactive) iff
`active` and not (`expiresAt` truthy and `expiresAt < Date.now()`). -/
def gatewayKeyAccepted (k : ApiKeyConfig) (now : Int) : Bool :=
  k.active && !(numTruthy k.expiresAt && decide (k.expiresAt.getD 0 < now))

/-- The acceptance predicate exactly as claim C4 words it: `active == true` and
(`expiresAt` unset/null, or `expiresAt` strictly later than the current
time). -/
def claimC4Accepts (k : ApiKeyConfig) (now : Int) : Bool :=
  k.active && (k.expiresAt.isNone || decide (now < k.expiresAt.getD 0))

/-- The legacy `ApiKeyData` record: `expiresAt` is an ISO date string or
`null`. -/
structure ApiKeyData where
  clientId : String
  active : Bool
  expiresAt : Option String
deriving DecidableEq, Repr

/-- JS truthiness of a `string | null` value: `null` and `""` are falsy. -/
def strTruthy : Option String → Bool
  | none => false
  | some s => s != ""

/-- JS `new Date(e) < new Date()`, with `parse` modelling `Date` parsing to
epoch milliseconds; `parse s = none` models an Invalid Date (`NaN`), whose
comparisons are all false. -/
def dateBefore (parse : String → Option Int) (e : Option String) (now : Int) : Bool :=
  match e with
  | none => false
  | some s =>
    match parse s with
    | some t => decide (t < now)
    | none => false

/-- Embedding of the legacy gateway `validateApiKey` (expiry checked before the
active flag, both guarded by the truthiness of `expiresAt`). -/
def validateApiKey (parse : String → Option Int) (now : Int)
    (keyData : Option ApiKeyData) : Option ApiKeyData :=
  match keyData with
  | none => none
  | some k =>
    if strTruthy k.expiresAt && dateBefore parse k.expiresAt now then none
    else if !k.active then none
    else some k

/-! Target resolution (`src/gateway/services/target.ts`).  The canonical
`matchTargetPattern` (lines 168-200, the variant imported together with
`getTargetConfig` and `extractRelativePath` by the canonical worker) and the
simpler legacy variant (lines 14-31) are both embedded.  The JS regular
expression engine is the parameter `re`: `re pat = none` models
`new RegExp(pat)` throwing (invalid pattern, caught and logged), and
`re pat = some test` a successfully compiled regex with test function
`test`. -/

/-- The `costInfo` sub-record of a `TargetConfig` (`description` omitted — it
never influences behaviour). -/
structure CostInfo where
  cost : Int
deriving DecidableEq, Repr

/-- The `TargetConfig` record (`shared/types`; `name` omitted — never read by
the pipeline). -/
structure TargetConfig where
  id : String
  pattern : List Char
  isRegex : Bool
  targetUrl : List Char
  costInfo : CostInfo
deriving DecidableEq, Repr

/-- Embedding of the canonical `matchTargetPattern(path, config)`
(`src/gateway/services/target.ts` lines 168-200). -/
def matchTargetPattern (re : List Char → Option (List Char → Bool))
    (path : List Char) (config : TargetConfig) : Bool :=
  if config.isRegex then
    match re config.pattern with
    | some test => test path
    | none => false
  else if jsEndsWithChar config.pattern '*' then
    let basePath := jsSlice1 config.pattern
    let basePathNoSlash := if jsEndsWithChar basePath '/' then jsSlice1 basePath else basePath
    if path == basePath || path == basePathNoSlash then true
    else jsStartsWith path basePath
  else if jsEndsWithChar config.pattern '/' then
    path == jsSlice1 config.pattern || path == config.pattern
  else
    path == config.pattern

/-- Embedding of the legacy `matchTargetPattern` (lines 14-31): wildcard
patterns are handled by prefix test alone, with no exact-base-path special
case. -/
def matchTargetPatternSimple (re : List Char → Option (List Char → Bool))
    (path : List Char) (config : TargetConfig) : Bool :=
  if config.isRegex then
    match re config.pattern with
    | some test => test path
    | none => false
  else if jsEndsWithChar config.pattern '*' then
    jsStartsWith path (jsSlice1 config.pattern)
  else
    path == config.pattern

/-- The wildcard-match condition as claim C5 words it: the path equals the
text before `*` (with or without a single trailing slash) or starts with
it. -/
def wildcardClaimMatch (path pat : List Char) : Bool :=
  let base := jsSlice1 pat
  path == base || path == (if jsEndsWithChar base '/' then jsSlice1 base else base)
    || jsStartsWith path base

/-- The canonical target config for the `/api/*` example. -/
def apiWildcardConfig : TargetConfig :=
  { id := "t1", pattern := "/api/*".toList, isRegex := false,
    targetUrl := "https://b.example".toList, costInfo := { cost := 1 } }

/-! Relative-path extraction (`src/gateway/services/target.ts` lines 205-244)
and the trailing-slash cleanup applied to its result by the canonical worker
(`src/gateway/index.ts` line 77). -/

/-- JS `s.indexOf(sub)` scanning helper: first position at or after offset `i`
where `sub` occurs in the remaining text. -/
def indexOfSubFrom (sub : List Char) : List Char → Nat → Option Nat
  | [], i => if sub.isEmpty then some i else none
  | c :: rest, i =>
    if List.isPrefixOf sub (c :: rest) then some i
    else indexOfSubFrom sub rest (i + 1)

/-- JS `s.indexOf(sub)`, as `Option Nat` (`none` = JS `-1`). -/
def indexOfSub (s sub : List Char) : Option Nat :=
  indexOfSubFrom sub s 0

/-- JS `s.includes(sub)`. -/
def jsIncludes (s sub : List Char) : Bool :=
  (indexOfSub s sub).isSome

/-- JS `s.substring(a, b)` for `a ≤ b`: the characters at positions
`[a, b)`. -/
def jsSubstring (s : List Char) (a b : Nat) : List Char :=
  (s.drop a).take (b - a)

/-- The path normalization at the top of `extractRelativePath`: remove one
trailing slash except from the root path. -/
def normalizePath (path : List Char) : List Char :=
  if decide (1 < path.length) && jsEndsWithChar path '/' then path.dropLast else path

/-- The base path computed from a regex pattern inside `extractRelativePath`:
`config.pattern.substring(1, config.pattern.indexOf('/.*')).replace(/\\/g, '')`. -/
def regexBasePath (pat : List Char) : List Char :=
  (jsSubstring pat 1 ((indexOfSub pat ['/', '.', '*']).getD 0)).filter (fun c => c != '\\')

/-- Embedding of `extractRelativePath(path, config)`
(`src/gateway/services/target.ts` lines 205-244). -/
def extractRelativePath (path : List Char) (config : TargetConfig) : List Char :=
  let normalizedPath := normalizePath path
  if config.isRegex && jsStartsWith config.pattern ['^', '/']
      && jsIncludes config.pattern ['/', '.', '*'] then
    let basePath := regexBasePath config.pattern
    if normalizedPath == basePath || normalizedPath == basePath ++ ['/'] then ['/']
    else if jsStartsWith normalizedPath basePath then
      let suffixPart := normalizedPath.drop basePath.length
      if suffixPart.isEmpty then ['/'] else suffixPart
    else normalizedPath
  else if !config.isRegex && jsEndsWithChar config.pattern '*' then
    let basePath := jsSlice1 config.pattern
    if normalizedPath == basePath || normalizedPath == jsSlice1 basePath then ['/']
    else if jsStartsWith normalizedPath basePath then
      let relativePath := normalizedPath.drop basePath.length
      if jsStartsWith relativePath ['/'] then relativePath else '/' :: relativePath
    else ['/']
  else ['/']

/-- The cleanup the canonical worker applies to the extracted relative path
before building the backend URL (`src/gateway/index.ts` line 77): remove a
trailing slash except from `/` itself. -/
def cleanRelativePath (relativePath : List Char) : List Char :=
  if decide (1 < relativePath.length) && jsEndsWithChar relativePath '/' then
    relativePath.dropLast
  else relativePath

/-- The wildcard target used in the C6 counterexample. -/
def slashWildcardConfig : TargetConfig :=
  { id := "t3", pattern := "/*".toList, isRegex := false,
    targetUrl := "u".toList, costInfo := { cost := 1 } }

/-! Responses and the request pipelines.  A `Resp` models an HTTP response by
its status and headers; headers are an association list in which the first
entry for a name wins on lookup, so an operation that overrides an existing
header prepends (`setHeader`), and one that adds defaults without overriding
appends them after the existing entries.  Response bodies are not modelled.
The external `fetch` to the backend is modelled by its outcome:
`none` = the fetch rejected (network error / timeout, i.e. the JS promise
threw), `some r` = it resolved with response `r`. -/

structure Resp where
  status : Nat
  headers : List (String × String)
deriving DecidableEq, Repr

/-- Header lookup (first entry for the name wins). -/
def getHeader (r : Resp) (name : String) : Option String :=
  (r.headers.find? (fun p => p.1 == name)).map (fun p => p.2)

/-- JS `headers.set(name, value)`: override any existing entry. -/
def setHeader (hs : List (String × String)) (name value : String) :
    List (String × String) :=
  (name, value) :: hs.filter (fun p => p.1 != name)

/-- `DEFAULT_SECURITY_HEADERS` from `src/shared/utils/response.ts`. -/
def securityHeaders : List (String × String) :=
  [("X-Content-Type-Options", "nosniff"), ("X-Frame-Options", "DENY"),
    ("X-XSS-Protection", "1; mode=block"),
    ("Referrer-Policy", "strict-origin-when-cross-origin"),
    ("Content-Security-Policy", "default-src 'self'; script-src 'self'"),
    ("Strict-Transport-Security", "max-age=31536000; includeSubDomains; preload"),
    ("Cache-Control", "no-store, no-cache, must-revalidate, proxy-revalidate"),
    ("Pragma", "no-cache")]

/-- The shared `errorResponse(status, message, extraHeaders)`
(`src/shared/utils/response.ts`): `Content-Type` plus the security headers,
with `extraHeaders` spread last (so they override — placed first here because
lookup takes the first entry). The JSON body `{error, code}` is not
modelled. -/
def errorResponse (status : Nat) (extraHeaders : List (String × String)) : Resp :=
  { status := status,
    headers := extraHeaders ++ ("Content-Type", "application/json") :: securityHeaders }

/-- The legacy `errorResponse` (`src/utils/response.ts`): same shape with only
two security headers. -/
def errorResponseLegacy (status : Nat) (extraHeaders : List (String × String)) : Resp :=
  { status := status,
    headers := extraHeaders ++ [("Content-Type", "application/json"),
      ("X-Content-Type-Options", "nosniff"), ("X-Frame-Options", "DENY")] }

/-- `addSecurityHeaders` / `secureResponse`: add the default security headers
only where absent — appended, so existing entries still win on lookup. CORS
header injection (origin-dependent, an out-of-scope collaborator) is not
modelled. -/
def addSecurityHeaderList (hs : List (String × String)) : List (String × String) :=
  hs ++ securityHeaders

/-- A backend (upstream) HTTP response. -/
structure BackendResp where
  status : Nat
  headers : List (String × String)
deriving DecidableEq, Repr

/-- The legacy `BackendConfig` record (`createdAt`/`updatedAt` omitted — never
read on the forwarding path). -/
structure BackendConfig where
  id : String
  pattern : List Char
  targetUrl : List Char
  isRegex : Bool
  addCreditsHeader : Bool
  forwardApiKey : Bool
  customHeaders : List (String × String)
deriving DecidableEq, Repr

/-- JS `number.toString()` for the integers carried in headers. -/
def intStr (i : Int) : String :=
  toString i

/-- Embedding of the response side of `forwardRequestToBackend`
(`src/handlers/proxy.ts`).  The outbound request construction (safe-header
allow-list, identity/credit headers, API-key forwarding, backend URL) only
influences the backend call itself, which is abstracted into `fetchResult`.
On a resolved fetch the backend response is annotated with the correlation id
and (when configured) the remaining-credits header; on a rejected fetch the
`catch` block returns a 502 response whose only headers are `Content-Type`
and the correlation id.  The function never touches the credit store. -/
def forwardRequestToBackend (requestId : String) (creditResult : CreditResult)
    (backendConfig : Option BackendConfig) (fetchResult : Option BackendResp) : Resp :=
  match fetchResult with
  | some response =>
    let hs := setHeader response.headers "X-Request-ID" requestId
    let hs :=
      if backendConfig.elim true (fun c => c.addCreditsHeader) then
        setHeader hs "X-Apiki-Credits-Remaining" (intStr creditResult.remaining)
      else hs
    { status := response.status, headers := hs }
  | none =>
    { status := 502,
      headers := [("Content-Type", "application/json"), ("X-Request-ID", requestId)] }

/-- Embedding of the canonical gateway worker's `processCredits(targetConfig,
clientId, env)` (the string-balance variant the worker calls): balance stored
as a bare integer string under `credits:<clientId>`, `parseInt` defaulting to
0 when absent; on `cost > balance` fail with `used: 0` and no write, else
write `balance - cost` back. -/
def processCreditsTarget (targetConfig : TargetConfig) (stored : Option Int) :
    CreditResult × Option Int :=
  let clientBalance := stored.getD 0
  if clientBalance < targetConfig.costInfo.cost then
    ({ success := false, remaining := clientBalance, used := some 0 }, stored)
  else
    let newBalance := clientBalance - targetConfig.costInfo.cost
    ({ success := true, remaining := newBalance, used := some targetConfig.costInfo.cost },
      some newBalance)

/-- Embedding of `getTargetConfig(targetId)` over the static in-process target
table (`src/gateway/services/target.ts` lines 150-163). -/
def getTargetConfig (targets : List TargetConfig) (targetId : String) : Option TargetConfig :=
  if targets.isEmpty then none
  else targets.find? (fun t => t.id == targetId)

/-- The inbound request as the pipelines consume it: method, the
`X-API-Key` header (`none` = absent) and the URL path. -/
structure GatewayRequest where
  method : String
  apiKeyHeader : Option String
  path : List Char

/-- The canonical worker's environment: API-key config lookup, the static
target table, the ambient regex engine, the per-client credit store
(integer-string balances) and the backend fetch outcome.  The CORS preflight
response (`handleCors`, an out-of-scope collaborator) is a parameter. -/
structure GatewayEnv where
  apiKeyConfigs : String → Option ApiKeyConfig
  targets : List TargetConfig
  regex : List Char → Option (List Char → Bool)
  credits : String → Option Int
  fetchResult : Option BackendResp
  corsResponse : Resp

/-- Embedding of the canonical gateway worker `fetch`
(`src/gateway/index.ts` lines 14-133): CORS short-circuit, missing-key 401,
invalid-key 403 (absent record or falsy `clientId`/`targetId`),
expired/inactive 403, target lookup 404, pattern-match 404, credit debit with
402 on failure, then the backend fetch — a rejected fetch throws into the
outer catch, which returns 500 with the post-debit credit headers (the debit
is not rolled back); a resolved fetch yields the backend response annotated
with credit headers and correlation id, plus security headers.  Every error
path passes `X-Request-ID: requestId` explicitly.  Returns the terminal
response and the final credit store. -/
def gatewayFetch (requestId : String) (now : Int) (req : GatewayRequest) (env : GatewayEnv) :
    Resp × (String → Option Int) :=
  if req.method == "OPTIONS" then (env.corsResponse, env.credits)
  else
    match req.apiKeyHeader with
    | none => (errorResponse 401 [("X-Request-ID", requestId)], env.credits)
    | some apiKey =>
      if apiKey == "" then (errorResponse 401 [("X-Request-ID", requestId)], env.credits)
      else
        match env.apiKeyConfigs apiKey with
        | none => (errorResponse 403 [("X-Request-ID", requestId)], env.credits)
        | some apiKeyConfig =>
          if apiKeyConfig.clientId == "" || apiKeyConfig.targetId == "" then
            (errorResponse 403 [("X-Request-ID", requestId)], env.credits)
          else if !gatewayKeyAccepted apiKeyConfig now then
            (errorResponse 403 [("X-Request-ID", requestId)], env.credits)
          else
            match getTargetConfig env.targets apiKeyConfig.targetId with
            | none => (errorResponse 404 [("X-Request-ID", requestId)], env.credits)
            | some targetConfig =>
              if !matchTargetPattern env.regex req.path targetConfig then
                (errorResponse 404 [("X-Request-ID", requestId)], env.credits)
              else
                let debit := processCreditsTarget targetConfig
                  (env.credits apiKeyConfig.clientId)
                let creditResult := debit.1
                let credits := fun id =>
                  if id == apiKeyConfig.clientId then debit.2 else env.credits id
                if !creditResult.success then
                  (errorResponse 402
                    [("X-Credits-Remaining", intStr creditResult.remaining),
                      ("X-Credits-Required", intStr targetConfig.costInfo.cost),
                      ("X-Request-ID", requestId)], credits)
                else
                  match env.fetchResult with
                  | none =>
                    (errorResponse 500
                      [("X-Credits-Remaining", intStr creditResult.remaining),
                        ("X-Credits-Used", intStr (creditResult.used.getD 0)),
                        ("X-Request-ID", requestId)], credits)
                  | some targetResponse =>
                    let hs := setHeader targetResponse.headers "X-Credits-Remaining"
                      (intStr creditResult.remaining)
                    let hs := setHeader hs "X-Credits-Used"
                      (intStr (creditResult.used.getD 0))
                    let hs := setHeader hs "X-Request-ID" requestId
                    ({ status := targetResponse.status,
                       headers := addSecurityHeaderList hs }, credits)

/-- A minimal `ClientRecord` as the legacy pipeline reads it (only existence
and the identity headers matter). -/
structure ClientRecord where
  id : String
  plan : String
deriving DecidableEq, Repr

/-- Embedding of the legacy `getEndpointCost` (`src/services/credits.ts`):
each `^...$` pattern of the static cost table is an exact match, each
`^.../.*$` pattern a prefix match, first match wins, default cost 1. -/
def getEndpointCost (endpoint : List Char) : Int :=
  if endpoint == "/api/v1/simple".toList then 1
  else if endpoint == "/api/v1/search".toList then 2
  else if endpoint == "/api/v1/complex".toList then 5
  else if jsStartsWith endpoint "/api/v1/images/".toList then 3
  else if jsStartsWith endpoint "/api/v1/data/large/".toList then 4
  else if jsStartsWith endpoint "/api/v2/".toList then 2
  else 1

/-- The legacy pipeline's environment (`src/index.ts`): API-key records with
string expiry dates, `Date` parsing, client lookup, the record-variant credit
store, the backend config resolved for the path (`findBackendConfig`, whose
list iteration is abstracted to its result), the fetch outcome, and the
responses of the out-of-scope admin and CORS collaborators. -/
structure LegacyEnv where
  apiKeys : String → Option ApiKeyData
  dateParse : String → Option Int
  clients : String → Option ClientRecord
  credits : String → Option CreditData
  backendConfig : Option BackendConfig
  fetchResult : Option BackendResp
  adminResponse : Resp
  corsResponse : Resp

/-- Embedding of the legacy `handleRequest` (`src/index.ts` lines 12-70):
CORS and `/admin/` short-circuits, then 401 / 403 / 403 / 429 short-circuits
— none of which attaches the correlation id, since the legacy `errorResponse`
does not add one — and finally `forwardRequestToBackend`, the only stage that
receives `requestId`.  (The surrounding catch likewise returns
`errorResponse(500, ...)` with no correlation id.)  Returns the terminal
response and the final credit store. -/
def handleRequest (requestId : String) (now : Int) (req : GatewayRequest)
    (env : LegacyEnv) : Resp × (String → Option CreditData) :=
  if req.method == "OPTIONS" then (env.corsResponse, env.credits)
  else if jsStartsWith req.path "/admin/".toList then (env.adminResponse, env.credits)
  else
    match req.apiKeyHeader with
    | none => (errorResponseLegacy 401 [], env.credits)
    | some apiKey =>
      if apiKey == "" then (errorResponseLegacy 401 [], env.credits)
      else
        match validateApiKey env.dateParse now (env.apiKeys apiKey) with
        | none => (errorResponseLegacy 403 [], env.credits)
        | some keyData =>
          match env.clients keyData.clientId with
          | none => (errorResponseLegacy 403 [], env.credits)
          | some _client =>
            let cost := getEndpointCost req.path
            let debit := processCredits cost now (env.credits keyData.clientId)
            let credits := fun id =>
              if id == keyData.clientId then debit.2 else env.credits id
            if !debit.1.success then
              (errorResponseLegacy 429
                [("X-Credits-Remaining", intStr debit.1.remaining),
                  ("X-Credits-Required", intStr cost)], credits)
            else
              (forwardRequestToBackend requestId debit.1 env.backendConfig env.fetchResult,
                credits)

/-- A backend config with the credits header enabled, for the C3
counterexample. -/
def demoBackendConfig : BackendConfig :=
  { id := "b1", pattern := "/t/*".toList, targetUrl := "https://b.example".toList,
    isRegex := false, addCreditsHeader := true, forwardApiKey := false, customHeaders := [] }

/-- A target with cost 5 for the pipeline scenarios. -/
def demoTarget : TargetConfig :=
  { id := "t1", pattern := "/api/*".toList, isRegex := false,
    targetUrl := "https://b.example".toList, costInfo := { cost := 5 } }

/-- A concrete environment: valid key `k1` for client `c1` bound to `t1`,
balance 12, and a backend fetch that fails. -/
def demoEnv : GatewayEnv :=
  { apiKeyConfigs := fun k => if k == "k1" then
      some { active := true, expiresAt := none, clientId := "c1", targetId := "t1" }
    else none,
    targets := [demoTarget],
    regex := fun _ => none,
    credits := fun c => if c == "c1" then some 12 else none,
    fetchResult := none,
    corsResponse := { status := 204, headers := [] } }

/-- The matching request for `demoEnv`. -/
def demoReq : GatewayRequest :=
  { method := "GET", apiKeyHeader := some "k1", path := "/api/x".toList }

/-- A request with no `X-API-Key` header. -/
def keylessDemoReq : GatewayRequest :=
  { method := "GET", apiKeyHeader := none, path := "/x".toList }

/-- A legacy environment in which every lookup misses. -/
def emptyLegacyEnv : LegacyEnv :=
  { apiKeys := fun _ => none, dateParse := fun _ => none, clients := fun _ => none,
    credits := fun _ => none, backendConfig := none, fetchResult := none,
    adminResponse := { status := 204, headers := [] },
    corsResponse := { status := 204, headers := [] } }

theorem processCredits_spec (cost now : Int) (stored : Option CreditData) :
    processCredits cost now stored =
      if storedBalance stored < cost then
        ({ success := false, remaining := storedBalance stored, used := none }, stored)
      else
        ({ success := true, remaining := storedBalance stored - cost, used := some cost },
          some { balance := storedBalance stored - cost, lastUpdated := now }) := by
  cases stored <;> rfl

theorem storedBalance_processCredits (cost now : Int) (stored : Option CreditData) :
    storedBalance (processCredits cost now stored).2 =
      if storedBalance stored < cost then storedBalance stored
      else storedBalance stored - cost := by
  rw [processCredits_spec]
  split <;> simp [storedBalance]

theorem runCredits_conservation (now : Int) (costs : List Int) (stored : Option CreditData) :
    storedBalance (runCredits now costs stored).2 =
      storedBalance stored - successCostSum costs (runCredits now costs stored).1 := by
  induction costs generalizing stored with
  | nil => simp [runCredits, successCostSum]
  | cons c cs ih =>
    simp only [runCredits, successCostSum]
    rw [processCredits_spec]
    by_cases h : storedBalance stored < c
    · simp only [if_pos h]
      rw [ih]
      simp
    · simp only [if_neg h]
      rw [ih]
      simp [storedBalance]
      ring

theorem runCredits_nonneg (now : Int) (costs : List Int) (stored : Option CreditData)
    (h : 0 ≤ storedBalance stored) :
    0 ≤ storedBalance (runCredits now costs stored).2 := by
  induction costs generalizing stored with
  | nil => simpa [runCredits]
  | cons c cs ih =>
    simp only [runCredits]
    apply ih
    rw [storedBalance_processCredits]
    split <;> omega

/-- C1: starting from stored balance `initial ≥ 0`, after any finite sequence of
sequential `processCredits` calls with non-negative costs, the stored balance
equals `initial` minus the sum of the costs of exactly the successful calls; the
stored balance is non-negative after every prefix of the sequence; and from
balance 10 with cost 5 the first two debits succeed (remaining 5 then 0) while
the third fails with remaining 0. -/
theorem processCredits_sequential (now t0 initial : Int) (costs : List Int)
    (hinit : 0 ≤ initial) (hcosts : ∀ c ∈ costs, 0 ≤ c) :
    (storedBalance (runCredits now costs (some ⟨initial, t0⟩)).2 =
        initial - successCostSum costs (runCredits now costs (some ⟨initial, t0⟩)).1)
    ∧ (∀ n, 0 ≤ storedBalance (runCredits now (costs.take n) (some ⟨initial, t0⟩)).2)
    ∧ (runCredits now [5, 5, 5] (some ⟨10, t0⟩)).1 =
        [⟨true, 5, some 5⟩, ⟨true, 0, some 5⟩, ⟨false, 0, none⟩]
    ∧ storedBalance (runCredits now [5, 5, 5] (some ⟨10, t0⟩)).2 = 0 := by
  refine ⟨?_, ?_, ?_, ?_⟩
  · have h := runCredits_conservation now costs (some ⟨initial, t0⟩)
    simpa [storedBalance] using h
  · intro n
    exact runCredits_nonneg now (costs.take n) _ (by simpa [storedBalance] using hinit)
  · norm_num [runCredits, processCredits, storedBalance]
  · norm_num [runCredits, processCredits, storedBalance]

/-- Closed witness for `processCredits_sequential` at `initial = 10`,
`costs = [5, 5, 5]`. -/
theorem processCredits_sequential_witness :
    storedBalance (runCredits 0 [5, 5, 5] (some ⟨10, 0⟩)).2 =
        10 - successCostSum [5, 5, 5] (runCredits 0 [5, 5, 5] (some ⟨10, 0⟩)).1
    ∧ (runCredits 0 [5, 5, 5] (some ⟨10, 0⟩)).1 =
        [⟨true, 5, some 5⟩, ⟨true, 0, some 5⟩, ⟨false, 0, none⟩] := by
  have h := processCredits_sequential 0 0 10 [5, 5, 5] (by decide)
    (by intro c hc; fin_cases hc <;> decide)
  exact ⟨h.1, h.2.2.1⟩

/-- C2 counterexample: on insufficient balance (balance 3, cost 5) the result of
`processCredits` is `success == false` with the `used` property absent
(`undefined`), not `used == 0` as the claim states. -/
theorem processCredits_failure_used_counterexample :
    (processCredits 5 99 (some ⟨3, 7⟩)).1.success = false
    ∧ (processCredits 5 99 (some ⟨3, 7⟩)).1.used ≠ some 0 := by
  decide

/-- C2 (amended): when the stored balance is strictly below the cost,
`processCredits` returns `{success: false, remaining: balance}` with the `used`
field absent (not `used: 0`), and performs no write at all: the stored record —
balance and `lastUpdated` alike, or its absence — is returned unchanged. -/
theorem processCredits_insufficient (cost now : Int) (stored : Option CreditData)
    (h : storedBalance stored < cost) :
    processCredits cost now stored =
      ({ success := false, remaining := storedBalance stored, used := none }, stored) := by
  rw [processCredits_spec, if_pos h]

/-- Closed witness for `processCredits_insufficient` at balance 3, cost 5. -/
theorem processCredits_insufficient_witness :
    processCredits 5 0 (some ⟨3, 7⟩) =
      ({ success := false, remaining := 3, used := none }, some ⟨3, 7⟩) := by
  have h := processCredits_insufficient 5 0 (some ⟨3, 7⟩) (by decide)
  simpa [storedBalance] using h

/-- C10 counterexample: a negative cost is not rejected — with an absent record
(balance 0) and cost `-5` the call succeeds and writes balance 5 — yet the
resulting stored balance is still non-negative, contradicting the claim that
the non-negative-balance guarantee holds *only* under non-negative costs. -/
theorem processCredits_negative_cost_counterexample :
    (processCredits (-5) 0 none).1.success = true
    ∧ storedBalance (processCredits (-5) 0 none).2 = 5
    ∧ (0 : Int) ≤ storedBalance (processCredits (-5) 0 none).2 := by
  decide

/-- C10 (amended): `processCredits` never validates the sign of `cost`: whenever
`cost ≤ balance` (including `cost = 0` and negative costs) it reports success
and writes `balance - cost` back, so a negative cost increases the stored
balance (from 5 with cost `-3` the stored balance becomes 8).  The
non-negative-balance guarantee however does not need non-negative costs:
success requires `cost ≤ balance`, so from a non-negative balance the written
balance `balance - cost` is always non-negative. -/
theorem processCredits_no_cost_sign_validation (cost now : Int) (stored : Option CreditData) :
    (cost ≤ storedBalance stored →
      (processCredits cost now stored).1.success = true
      ∧ storedBalance (processCredits cost now stored).2 = storedBalance stored - cost)
    ∧ (0 ≤ storedBalance stored → 0 ≤ storedBalance (processCredits cost now stored).2)
    ∧ storedBalance (processCredits (-3) now (some ⟨5, 0⟩)).2 = 8 := by
  refine ⟨?_, ?_, ?_⟩
  · intro hle
    constructor
    · rw [processCredits_spec, if_neg (not_lt.mpr hle)]
    · rw [storedBalance_processCredits, if_neg (not_lt.mpr hle)]
  · intro h0
    rw [storedBalance_processCredits]
    split <;> omega
  · norm_num [processCredits, storedBalance]

/-- Closed witness for `processCredits_no_cost_sign_validation` at balance 5,
cost `-3`. -/
theorem processCredits_no_cost_sign_validation_witness :
    (processCredits (-3) 0 (some ⟨5, 0⟩)).1.success = true
    ∧ 0 ≤ storedBalance (processCredits (-3) 0 (some ⟨5, 0⟩)).2 := by
  have h := processCredits_no_cost_sign_validation (-3) 0 (some ⟨5, 0⟩)
  exact ⟨(h.1 (by decide)).1, h.2.1 (by decide)⟩

/-- C4 counterexample: a key whose `expiresAt` equals the current instant
exactly is accepted by the code (strict `<` comparison), while the claimed
acceptance predicate (`expiresAt` strictly later than now) rejects it. -/
theorem apiKeyExpiry_boundary_counterexample :
    gatewayKeyAccepted ⟨true, some 1000, "c", "t"⟩ 1000 = true
    ∧ claimC4Accepts ⟨true, some 1000, "c", "t"⟩ 1000 = false := by
  decide

/-- C4 (amended): the gateway accepts a key iff `active == true` and
(`expiresAt` is falsy — `null` or `0` — or `expiresAt ≥ now`); consequently a
key with `expiresAt` one millisecond in the past is rejected (for any real
clock, `now > 1`), a key with `expiresAt` one hour ahead is accepted, and a
key with `expiresAt == null` is never rejected for expiry. -/
theorem gatewayKeyAccepted_characterization (now : Int) (hnow : 1 < now) :
    (∀ k : ApiKeyConfig, gatewayKeyAccepted k now =
      (k.active && (!numTruthy k.expiresAt || decide (now ≤ k.expiresAt.getD 0))))
    ∧ (∀ k : ApiKeyConfig, k.active = true → k.expiresAt = some (now - 1) →
        gatewayKeyAccepted k now = false)
    ∧ (∀ k : ApiKeyConfig, k.active = true → k.expiresAt = some (now + 3600000) →
        gatewayKeyAccepted k now = true)
    ∧ (∀ k : ApiKeyConfig, k.active = true → k.expiresAt = none →
        gatewayKeyAccepted k now = true) := by
  refine ⟨?_, ?_, ?_, ?_⟩
  · intro k
    cases hk : k.expiresAt with
    | none => simp [gatewayKeyAccepted, numTruthy, hk]
    | some t =>
      cases ha : k.active <;>
        simp only [gatewayKeyAccepted, numTruthy, hk, ha, Option.getD,
          Bool.false_and, Bool.true_and] <;>
        by_cases ht : t = 0 <;> by_cases hlt : t < now <;>
        simp [ht, hlt, not_lt.mp, le_of_not_lt]
  · intro k ha hk
    simp [gatewayKeyAccepted, numTruthy, hk, ha]
    omega
  · intro k ha hk
    simp [gatewayKeyAccepted, numTruthy, hk, ha]
  · intro k ha hk
    simp [gatewayKeyAccepted, numTruthy, hk, ha]

/-- Closed witness for `gatewayKeyAccepted_characterization` at `now = 2`. -/
theorem gatewayKeyAccepted_characterization_witness :
    gatewayKeyAccepted ⟨true, some 1, "c", "t"⟩ 2 = false
    ∧ gatewayKeyAccepted ⟨true, none, "c", "t"⟩ 2 = true := by
  have h := gatewayKeyAccepted_characterization 2 (by decide)
  exact ⟨h.2.1 _ rfl (by decide), h.2.2.2 _ rfl rfl⟩

/-- C9: the expiry comparison is strict and guarded by JS truthiness of
`expiresAt`, so a key expiring exactly now is accepted (numeric variant), a
numeric `expiresAt == 0` is treated as never expiring, and a string
`expiresAt == ""` is likewise treated as never expiring by the legacy
`validateApiKey`, whatever `Date` parsing would say. -/
theorem apiKeyExpiry_truthiness (now : Int) :
    (∀ k : ApiKeyConfig, k.active = true → k.expiresAt = some now → now ≠ 0 →
      gatewayKeyAccepted k now = true)
    ∧ (∀ k : ApiKeyConfig, k.active = true → k.expiresAt = some 0 →
      gatewayKeyAccepted k now = true)
    ∧ (∀ (parse : String → Option Int) (k : ApiKeyData), k.active = true →
      k.expiresAt = some "" → validateApiKey parse now (some k) = some k) := by
  refine ⟨?_, ?_, ?_⟩
  · intro k ha hk hz
    simp [gatewayKeyAccepted, numTruthy, hk, ha, hz]
  · intro k ha hk
    simp [gatewayKeyAccepted, numTruthy, hk, ha]
  · intro parse k ha hk
    simp [validateApiKey, strTruthy, hk, ha]

/-- Closed witness for `apiKeyExpiry_truthiness` at `now = 5`. -/
theorem apiKeyExpiry_truthiness_witness :
    gatewayKeyAccepted ⟨true, some 5, "c", "t"⟩ 5 = true
    ∧ validateApiKey (fun _ => none) 5 (some ⟨"c", true, some ""⟩) =
        some ⟨"c", true, some ""⟩ := by
  have h := apiKeyExpiry_truthiness 5
  exact ⟨h.1 _ rfl rfl (by decide), h.2.2 _ _ rfl rfl⟩

theorem matchTargetPattern_nonregex_engine_irrelevant
    (re re2 : List Char → Option (List Char → Bool)) (path : List Char)
    (config : TargetConfig) (hreg : config.isRegex = false) :
    matchTargetPattern re path config = matchTargetPattern re2 path config := by
  simp [matchTargetPattern, hreg]

theorem matchTargetPattern_wildcard_eq
    (re : List Char → Option (List Char → Bool)) (path : List Char)
    (config : TargetConfig) (hreg : config.isRegex = false)
    (hstar : jsEndsWithChar config.pattern '*' = true) :
    matchTargetPattern re path config = wildcardClaimMatch path config.pattern := by
  simp only [matchTargetPattern, wildcardClaimMatch, hreg, hstar, if_true,
    Bool.false_eq_true, if_false]
  cases h1 : path == jsSlice1 config.pattern <;>
    cases h2 : path ==
      (if jsEndsWithChar (jsSlice1 config.pattern) '/' then jsSlice1 (jsSlice1 config.pattern)
        else jsSlice1 config.pattern) <;>
    simp [h1, h2]

/-- C5: `matchTargetPattern` is a pure function of its arguments — for a
non-regex config its value does not even depend on the ambient regex engine —
and for a wildcard pattern ending in `*` it matches a path iff the path equals
the text before `*` (with or without a single trailing slash) or starts with
it; in particular against `/api/*` the paths `/api`, `/api/` and `/api/x`
match while `/apix` does not. -/
theorem matchTargetPattern_wildcard (re re2 : List Char → Option (List Char → Bool))
    (path : List Char) (config : TargetConfig) (hreg : config.isRegex = false)
    (hstar : jsEndsWithChar config.pattern '*' = true) :
    (matchTargetPattern re path config = wildcardClaimMatch path config.pattern)
    ∧ (matchTargetPattern re path config = matchTargetPattern re2 path config)
    ∧ matchTargetPattern re "/api".toList apiWildcardConfig = true
    ∧ matchTargetPattern re "/api/".toList apiWildcardConfig = true
    ∧ matchTargetPattern re "/api/x".toList apiWildcardConfig = true
    ∧ matchTargetPattern re "/apix".toList apiWildcardConfig = false := by
  refine ⟨matchTargetPattern_wildcard_eq re path config hreg hstar,
    matchTargetPattern_nonregex_engine_irrelevant re re2 path config hreg, ?_, ?_, ?_, ?_⟩ <;>
  · rw [matchTargetPattern_nonregex_engine_irrelevant re (fun _ => none) _ _ rfl]
    decide

/-- Closed witness for `matchTargetPattern_wildcard` at pattern `/api/*`,
path `/api/x`. -/
theorem matchTargetPattern_wildcard_witness :
    matchTargetPattern (fun _ => none) "/api/x".toList apiWildcardConfig =
      wildcardClaimMatch "/api/x".toList apiWildcardConfig.pattern
    ∧ matchTargetPattern (fun _ => none) "/api".toList apiWildcardConfig = true := by
  have h := matchTargetPattern_wildcard (fun _ => none) (fun _ => none)
    "/api/x".toList apiWildcardConfig rfl (by decide)
  exact ⟨h.1, h.2.2.1⟩

/-- C8: with `isRegex == true`, when the stored pattern is not a valid regular
expression (`new RegExp` throws, modelled by the engine returning `none`), the
canonical `matchTargetPattern` returns `false` — the exception is caught and
treated as a non-match, so an invalid pattern cannot crash the pipeline; the
function is total by construction. -/
theorem matchTargetPattern_invalid_regex (re : List Char → Option (List Char → Bool))
    (path : List Char) (config : TargetConfig) (hreg : config.isRegex = true)
    (hcomp : re config.pattern = none) :
    matchTargetPattern re path config = false := by
  simp [matchTargetPattern, hreg, hcomp]

/-- Closed witness for `matchTargetPattern_invalid_regex` on the invalid
pattern `(`. -/
theorem matchTargetPattern_invalid_regex_witness :
    matchTargetPattern (fun _ => none) "/x".toList
      { id := "t2", pattern := "(".toList, isRegex := true,
        targetUrl := "u".toList, costInfo := { cost := 1 } } = false :=
  matchTargetPattern_invalid_regex _ _ _ rfl rfl

theorem getLast?_drop_of_ne_nil (l : List Char) (k : Nat) (h : l.drop k ≠ []) :
    (l.drop k).getLast? = l.getLast? := by
  conv_rhs => rw [← List.take_append_drop k l]
  exact (List.getLast?_append_of_ne_nil _ h).symm

theorem jsEndsWithChar_drop (s : List Char) (k : Nat) (c : Char) (h : s.drop k ≠ []) :
    jsEndsWithChar (s.drop k) c = jsEndsWithChar s c := by
  simp [jsEndsWithChar, getLast?_drop_of_ne_nil s k h]

theorem jsEndsWithChar_append (l t : List Char) (c : Char) (h : t ≠ []) :
    jsEndsWithChar (l ++ t) c = jsEndsWithChar t c := by
  simp [jsEndsWithChar, List.getLast?_append_of_ne_nil l h]

theorem jsEndsWithChar_cons (a : Char) (t : List Char) (c : Char) (h : t ≠ []) :
    jsEndsWithChar (a :: t) c = jsEndsWithChar t c := by
  cases t with
  | nil => exact absurd rfl h
  | cons b bs => simp [jsEndsWithChar, List.getLast?_cons_cons]

theorem normalizePath_of_not_endsWith (path : List Char)
    (h : jsEndsWithChar path '/' = false) : normalizePath path = path := by
  simp [normalizePath, h]

theorem normalizePath_ne_nil (path : List Char) (h : path ≠ []) :
    normalizePath path ≠ [] := by
  unfold normalizePath
  split
  · rename_i hcond
    simp only [Bool.and_eq_true, decide_eq_true_eq] at hcond
    intro hnil
    have := congrArg List.length hnil
    simp [List.length_dropLast] at this
    omega
  · exact h

theorem normalizePath_result (path : List Char)
    (hns : jsEndsWithChar path '/' = true → jsEndsWithChar path.dropLast '/' = false) :
    jsEndsWithChar (normalizePath path) '/' = false ∨ normalizePath path = ['/'] := by
  by_cases he : jsEndsWithChar path '/' = true
  · by_cases hl : 1 < path.length
    · left
      rw [normalizePath, if_pos (by simp [hl, he])]
      exact hns he
    · right
      rw [normalizePath, if_neg (by simp [hl])]
      cases path with
      | nil => simp [jsEndsWithChar] at he
      | cons a as =>
        cases as with
        | nil =>
          simp [jsEndsWithChar] at he
          simp [he]
        | cons b bs => simp at hl
  · left
    rw [normalizePath, if_neg (by simp [he])]
    exact Bool.not_eq_true _ ▸ (Bool.eq_false_iff.mpr he)

theorem extractRelativePath_ne_nil (path : List Char) (config : TargetConfig)
    (h : path ≠ []) : extractRelativePath path config ≠ [] := by
  have hn := normalizePath_ne_nil path h
  unfold extractRelativePath
  by_cases hA : (config.isRegex && jsStartsWith config.pattern ['^', '/']
      && jsIncludes config.pattern ['/', '.', '*']) = true
  · rw [if_pos hA]
    by_cases h1 : (normalizePath path == regexBasePath config.pattern
        || normalizePath path == regexBasePath config.pattern ++ ['/']) = true
    · rw [if_pos h1]; simp
    · rw [if_neg h1]
      by_cases h2 : jsStartsWith (normalizePath path) (regexBasePath config.pattern) = true
      · rw [if_pos h2]
        by_cases h3 : ((normalizePath path).drop (regexBasePath config.pattern).length).isEmpty
            = true
        · rw [if_pos h3]; simp
        · rw [if_neg h3]
          simpa [List.isEmpty_iff] using h3
      · rw [if_neg h2]; exact hn
  · rw [if_neg hA]
    by_cases hB : (!config.isRegex && jsEndsWithChar config.pattern '*') = true
    · rw [if_pos hB]
      by_cases h1 : (normalizePath path == jsSlice1 config.pattern
          || normalizePath path == jsSlice1 (jsSlice1 config.pattern)) = true
      · rw [if_pos h1]; simp
      · rw [if_neg h1]
        by_cases h2 : jsStartsWith (normalizePath path) (jsSlice1 config.pattern) = true
        · rw [if_pos h2]
          by_cases h3 : jsStartsWith
              ((normalizePath path).drop (jsSlice1 config.pattern).length) ['/'] = true
          · rw [if_pos h3]
            intro hnil
            rw [hnil] at h3
            simp [jsStartsWith, List.isPrefixOf] at h3
          · rw [if_neg h3]; simp
        · rw [if_neg h2]; simp
    · rw [if_neg hB]; simp

theorem extractRelativePath_no_trailing (path : List Char) (config : TargetConfig)
    (hns : jsEndsWithChar path '/' = true → jsEndsWithChar path.dropLast '/' = false) :
    extractRelativePath path config = ['/']
    ∨ jsEndsWithChar (extractRelativePath path config) '/' = false := by
  have hnp := normalizePath_result path hns
  unfold extractRelativePath
  by_cases hA : (config.isRegex && jsStartsWith config.pattern ['^', '/']
      && jsIncludes config.pattern ['/', '.', '*']) = true
  · rw [if_pos hA]
    by_cases h1 : (normalizePath path == regexBasePath config.pattern
        || normalizePath path == regexBasePath config.pattern ++ ['/']) = true
    · rw [if_pos h1]; left; rfl
    · rw [if_neg h1]
      by_cases h2 : jsStartsWith (normalizePath path) (regexBasePath config.pattern) = true
      · rw [if_pos h2]
        by_cases h3 : ((normalizePath path).drop (regexBasePath config.pattern).length).isEmpty
            = true
        · rw [if_pos h3]; left; rfl
        · rw [if_neg h3]
          right
          have hdne : (normalizePath path).drop (regexBasePath config.pattern).length ≠ [] := by
            simpa [List.isEmpty_iff] using h3
          rw [jsEndsWithChar_drop _ _ _ hdne]
          rcases hnp with hh | hh
          · exact hh
          · exfalso
            rw [hh] at h1 h2
            have hp : regexBasePath config.pattern <+: ['/'] := by
              simpa [jsStartsWith] using h2
            rcases hp with ⟨t, ht⟩
            rcases hb : regexBasePath config.pattern with _ | ⟨c, cs⟩
            · rw [hb] at h1; simp at h1
            · rw [hb] at ht
              rcases cs with _ | ⟨d, ds⟩
              · simp at ht
                rw [hb] at h1
                simp [ht.1] at h1
              · simp at ht
      · rw [if_neg h2]
        rcases hnp with hh | hh
        · right; exact hh
        · left; exact hh
  · rw [if_neg hA]
    by_cases hB : (!config.isRegex && jsEndsWithChar config.pattern '*') = true
    · rw [if_pos hB]
      by_cases h1 : (normalizePath path == jsSlice1 config.pattern
          || normalizePath path == jsSlice1 (jsSlice1 config.pattern)) = true
      · rw [if_pos h1]; left; rfl
      · rw [if_neg h1]
        by_cases h2 : jsStartsWith (normalizePath path) (jsSlice1 config.pattern) = true
        · rw [if_pos h2]
          have hp : jsSlice1 config.pattern <+: normalizePath path := by
            simpa [jsStartsWith] using h2
          rcases hp with ⟨t, ht⟩
          have hdrop : (normalizePath path).drop (jsSlice1 config.pattern).length = t := by
            rw [← ht]; exact List.drop_left _ _
          have htne : t ≠ [] := by
            rintro rfl
            simp only [List.append_nil] at ht
            exact absurd (by simp [ht]) h1
          rw [hdrop]
          by_cases h3 : jsStartsWith t ['/'] = true
          · rw [if_pos h3]
            rcases hnp with hh | hh
            · right
              rw [← jsEndsWithChar_append (jsSlice1 config.pattern) t '/' htne, ht]
              exact hh
            · rw [hh] at ht h1
              rcases hb : jsSlice1 config.pattern with _ | ⟨c, cs⟩
              · rw [hb] at ht
                simp at ht
                left; exact ht
              · rw [hb] at ht
                rcases cs with _ | ⟨d, ds⟩
                · exfalso
                  simp at ht
                  exact htne ht.2
                · exfalso
                  simp at ht
          · rw [if_neg h3]
            right
            rw [jsEndsWithChar_cons '/' t '/' htne]
            rcases hnp with hh | hh
            · rw [← jsEndsWithChar_append (jsSlice1 config.pattern) t '/' htne, ht]
              exact hh
            · exfalso
              rw [hh] at ht h1
              rcases hb : jsSlice1 config.pattern with _ | ⟨c, cs⟩
              · rw [hb] at ht
                simp at ht
                rw [ht] at h3
                simp [jsStartsWith, List.isPrefixOf] at h3
              · rw [hb] at ht
                rcases cs with _ | ⟨d, ds⟩
                · simp at ht
                  exact htne ht.2
                · simp at ht
        · rw [if_neg h2]; left; rfl
    · rw [if_neg hB]; left; rfl

theorem jsStartsWith_false_of_lt (s p : List Char) (h : s.length < p.length) :
    jsStartsWith s p = false := by
  cases hsp : List.isPrefixOf p s
  · simp [jsStartsWith, hsp]
  · exfalso
    have hpre : p <+: s := by simpa using hsp
    have := hpre.length_le
    omega

theorem normalizePath_self_or_slice (b : List Char) :
    (normalizePath b == b || normalizePath b == jsSlice1 b) = true := by
  unfold normalizePath jsSlice1
  by_cases hc : (decide (1 < b.length) && jsEndsWithChar b '/') = true
  · rw [if_pos hc]; simp
  · rw [if_neg hc]; simp

theorem extractRelativePath_matched_base (config : TargetConfig)
    (hreg : config.isRegex = false) :
    extractRelativePath (jsSlice1 config.pattern) config = ['/']
    ∧ extractRelativePath
        (if jsEndsWithChar (jsSlice1 config.pattern) '/' then jsSlice1 (jsSlice1 config.pattern)
          else jsSlice1 config.pattern) config = ['/'] := by
  have hbase : extractRelativePath (jsSlice1 config.pattern) config = ['/'] := by
    unfold extractRelativePath
    rw [if_neg (by simp [hreg])]
    by_cases hB : (!config.isRegex && jsEndsWithChar config.pattern '*') = true
    · rw [if_pos hB, if_pos (normalizePath_self_or_slice _)]
    · rw [if_neg hB]
  refine ⟨hbase, ?_⟩
  by_cases he : jsEndsWithChar (jsSlice1 config.pattern) '/' = true
  · rw [if_pos he]
    unfold extractRelativePath
    rw [if_neg (by simp [hreg])]
    by_cases hB : (!config.isRegex && jsEndsWithChar config.pattern '*') = true
    · rw [if_pos hB]
      by_cases hc : (decide (1 < (jsSlice1 (jsSlice1 config.pattern)).length)
          && jsEndsWithChar (jsSlice1 (jsSlice1 config.pattern)) '/') = true
      · have hn : normalizePath (jsSlice1 (jsSlice1 config.pattern)) =
            (jsSlice1 (jsSlice1 config.pattern)).dropLast := by
          rw [normalizePath, if_pos hc]
        have e2 : ((jsSlice1 (jsSlice1 config.pattern)).dropLast).length
            = (jsSlice1 (jsSlice1 config.pattern)).length - 1 := List.length_dropLast _
        have e1 : (jsSlice1 (jsSlice1 config.pattern)).length
            = (jsSlice1 config.pattern).length - 1 := by
          simp [jsSlice1, List.length_dropLast]
        have hlen : 2 < (jsSlice1 config.pattern).length := by
          simp only [Bool.and_eq_true, decide_eq_true_eq] at hc
          have h1 := hc.1
          omega
        have hL1 : ((jsSlice1 (jsSlice1 config.pattern)).dropLast
            == jsSlice1 config.pattern) = false := by
          rw [beq_eq_false_iff_ne]
          intro hEq
          have hc2 := congrArg List.length hEq
          omega
        have hL2 : ((jsSlice1 (jsSlice1 config.pattern)).dropLast
            == jsSlice1 (jsSlice1 config.pattern)) = false := by
          rw [beq_eq_false_iff_ne]
          intro hEq
          have hc2 := congrArg List.length hEq
          omega
        have hSW : jsStartsWith ((jsSlice1 (jsSlice1 config.pattern)).dropLast)
            (jsSlice1 config.pattern) = false := by
          apply jsStartsWith_false_of_lt
          omega
        rw [if_neg (by simp only [hn, hL1, hL2, Bool.or_self]; simp)]
        rw [if_neg (by simp [hn, hSW])]
      · have hn : normalizePath (jsSlice1 (jsSlice1 config.pattern)) =
            jsSlice1 (jsSlice1 config.pattern) := by
          rw [normalizePath, if_neg hc]
        rw [if_pos (by simp [hn])]
    · rw [if_neg hB]
  · rw [if_neg he]
    exact hbase

theorem extractRelativePath_regex_base (config : TargetConfig)
    (hreg : config.isRegex = true)
    (hcar : jsStartsWith config.pattern ['^', '/'] = true)
    (hinc : jsIncludes config.pattern ['/', '.', '*'] = true)
    (hbe : jsEndsWithChar (regexBasePath config.pattern) '/' = false) :
    extractRelativePath (regexBasePath config.pattern) config = ['/'] := by
  unfold extractRelativePath
  rw [if_pos (by simp [hreg, hcar, hinc])]
  rw [if_pos (by simp [normalizePath_of_not_endsWith _ hbe])]

/-- C6 counterexample: the path `/a///` is matched by the wildcard pattern
`/*`, yet the relative path used to build the backend URL (after the worker's
trailing-slash cleanup) is `/a/` — not `/`, and still carrying a trailing
slash, contradicting the claim that any trailing slash on the computed suffix
is stripped unless the suffix is exactly `/`. -/
theorem extractRelativePath_trailing_slash_counterexample :
    matchTargetPattern (fun _ => none) "/a///".toList slashWildcardConfig = true
    ∧ cleanRelativePath (extractRelativePath "/a///".toList slashWildcardConfig) = "/a/".toList
    ∧ cleanRelativePath (extractRelativePath "/a///".toList slashWildcardConfig) ≠ "/".toList
    ∧ jsEndsWithChar
        (cleanRelativePath (extractRelativePath "/a///".toList slashWildcardConfig)) '/'
        = true := by
  decide

/-- C6 (amended): for every non-empty path and every target config, the
extracted relative path is non-empty; for a non-regex wildcard target, a path
equal to the matched base — with or without its trailing slash — extracts to
exactly `/`, and likewise for a regex-with-wildcard target whose computed base
has no trailing slash; and provided the path does not end in two consecutive
slashes, the relative path used for the backend URL (after the worker's
cleanup) either is exactly `/` or carries no trailing slash. -/
theorem extractRelativePath_root_spec (path : List Char) (config : TargetConfig)
    (hpath : path ≠ [])
    (hns : jsEndsWithChar path '/' = true → jsEndsWithChar path.dropLast '/' = false) :
    extractRelativePath path config ≠ []
    ∧ (config.isRegex = false →
        extractRelativePath (jsSlice1 config.pattern) config = ['/']
        ∧ extractRelativePath
            (if jsEndsWithChar (jsSlice1 config.pattern) '/' then
              jsSlice1 (jsSlice1 config.pattern)
            else jsSlice1 config.pattern) config = ['/'])
    ∧ (config.isRegex = true → jsStartsWith config.pattern ['^', '/'] = true →
        jsIncludes config.pattern ['/', '.', '*'] = true →
        jsEndsWithChar (regexBasePath config.pattern) '/' = false →
        extractRelativePath (regexBasePath config.pattern) config = ['/'])
    ∧ (cleanRelativePath (extractRelativePath path config) = ['/']
        ∨ jsEndsWithChar (cleanRelativePath (extractRelativePath path config)) '/' = false) := by
  refine ⟨extractRelativePath_ne_nil path config hpath,
    fun hreg => extractRelativePath_matched_base config hreg,
    fun hreg hcar hinc hbe => extractRelativePath_regex_base config hreg hcar hinc hbe, ?_⟩
  rcases extractRelativePath_no_trailing path config hns with h | h
  · left
    rw [h]
    rfl
  · right
    rw [cleanRelativePath, if_neg (by simp [h])]
    exact h

/-- Closed witness for `extractRelativePath_root_spec` at path `/t/foo`,
config `/api/*`. -/
theorem extractRelativePath_root_spec_witness :
    extractRelativePath "/t/foo".toList apiWildcardConfig ≠ []
    ∧ (cleanRelativePath (extractRelativePath "/t/foo".toList apiWildcardConfig) = ['/']
        ∨ jsEndsWithChar
            (cleanRelativePath (extractRelativePath "/t/foo".toList apiWildcardConfig)) '/'
            = false) := by
  have h := extractRelativePath_root_spec "/t/foo".toList apiWildcardConfig
    (by decide) (by decide)
  exact ⟨h.1, h.2.2.2⟩

/-- C3 counterexample: on a failed backend fetch after a successful debit
(5 credits used, 5 remaining), the proxy forwarder's error response has
status 502 and carries the correlation id, but not the credit-accounting
headers — even with `addCreditsHeader` enabled — refuting the claim that the
error response carries both. -/
theorem forwardFailure_counterexample :
    (forwardRequestToBackend "rid" { success := true, remaining := 5, used := some 5 }
        (some demoBackendConfig) none).status = 502
    ∧ getHeader (forwardRequestToBackend "rid" { success := true, remaining := 5, used := some 5 }
        (some demoBackendConfig) none) "X-Request-ID" = some "rid"
    ∧ getHeader (forwardRequestToBackend "rid" { success := true, remaining := 5, used := some 5 }
        (some demoBackendConfig) none) "X-Apiki-Credits-Remaining" = none := by
  decide

/-- C3 (amended): when the backend fetch fails after a successful debit, the
legacy forwarder returns a 502 response that carries the correlation id but
none of the credit-accounting headers, while the canonical gateway worker's
catch instead returns a 500 response carrying the correlation id and both
credit headers computed by the debit; in both variants the debit is not
rolled back — in the concrete scenario (balance 12, cost 5, fetch failure)
the stored balance remains 7 after the failure response. -/
theorem forwardFailure_spec (requestId : String) (cr : CreditResult)
    (bc : Option BackendConfig) :
    ((forwardRequestToBackend requestId cr bc none).status = 502
      ∧ getHeader (forwardRequestToBackend requestId cr bc none) "X-Request-ID"
          = some requestId
      ∧ getHeader (forwardRequestToBackend requestId cr bc none) "X-Apiki-Credits-Remaining"
          = none)
    ∧ ((gatewayFetch "rid" 0 demoReq demoEnv).1.status = 500
      ∧ getHeader (gatewayFetch "rid" 0 demoReq demoEnv).1 "X-Request-ID" = some "rid"
      ∧ getHeader (gatewayFetch "rid" 0 demoReq demoEnv).1 "X-Credits-Remaining" = some "7"
      ∧ getHeader (gatewayFetch "rid" 0 demoReq demoEnv).1 "X-Credits-Used" = some "5"
      ∧ (gatewayFetch "rid" 0 demoReq demoEnv).2 "c1" = some 7) := by
  refine ⟨⟨rfl, ?_, ?_⟩, ?_⟩
  · simp [forwardRequestToBackend, getHeader]
  · simp [forwardRequestToBackend, getHeader]
  · decide

/-- C7 counterexample: in the legacy `handleRequest` pipeline, the
missing-key terminal response (state `AuthHeaderCheck`, 401) carries no
`X-Request-ID` header at all, refuting the claim that every terminal
response of every pipeline state carries the correlation id. -/
theorem handleRequest_missing_requestId_counterexample :
    getHeader (handleRequest "rid" 0 keylessDemoReq emptyLegacyEnv).1 "X-Request-ID" = none
    ∧ (handleRequest "rid" 0 keylessDemoReq emptyLegacyEnv).1.status = 401 := by
  decide

/-- C7 (amended): in the canonical gateway worker, for every non-preflight
request the terminal response — whichever pipeline state produced it (missing
key, invalid key, expired/inactive key, target not found, pattern mismatch,
insufficient credits, backend failure, or proxied success) — carries the
single per-request correlation id `requestId` in its `X-Request-ID` response
header.  (The legacy `handleRequest` pipeline does not have this property —
see its counterexample.) -/
theorem gatewayFetch_requestId (requestId : String) (now : Int) (req : GatewayRequest)
    (env : GatewayEnv) (hm : req.method ≠ "OPTIONS") :
    getHeader (gatewayFetch requestId now req env).1 "X-Request-ID" = some requestId := by
  unfold gatewayFetch
  rw [if_neg (by simpa using hm)]
  repeat' split
  all_goals simp [getHeader, errorResponse, setHeader, addSecurityHeaderList]
  all_goals (split <;>
    simp [getHeader, errorResponse, setHeader, addSecurityHeaderList])

/-- Closed witness for `gatewayFetch_requestId` on the demo scenario. -/
theorem gatewayFetch_requestId_witness :
    getHeader (gatewayFetch "rid" 0 demoReq demoEnv).1 "X-Request-ID" = some "rid" :=
  gatewayFetch_requestId "rid" 0 demoReq demoEnv (by decide)

end Apiki
